import Mathlib

/-!
Verification development for the prompt-to-video variant pipeline
(style-brief generation, spec normalization, structured-output extraction,
render invocation and the orchestrating POST handler).

The definitions below are shallow embeddings of the TypeScript source:
numbers that the zod schema constrains to integers are modelled as `Int`,
JSON values as an inductive `Json` type, fallible code as `Option`/`Except`,
and the two external collaborators (the generative-model service and the
rendering engine) as explicitly passed functions.
-/

/-- JSON values, as produced by `JSON.parse`. -/
inductive Json where
  | null : Json
  | bool (b : Bool) : Json
  | num (n : Int) : Json
  | str (s : String) : Json
  | arr (elems : List Json) : Json
  | obj (fields : List (String × Json)) : Json

/-- JavaScript `x || d` for an integer-valued expression: `0` is falsy. -/
def jsOrInt (x d : Int) : Int := if x = 0 then d else x

/-- JavaScript `s || d` for a string-valued expression: `""` is falsy. -/
def jsOrStr (s d : String) : String := if s = "" then d else s

/-- `GeneratedVideoSpec`: the schema-validated video spec.
`width`/`height`/`fps`/`durationInFrames` are integers per the zod schema
(`z.number().int()`), `inputProps` is a JSON record. -/
@[ext]
structure GeneratedVideoSpec where
  title : String
  width : Int
  height : Int
  fps : Int
  durationInFrames : Int
  inputProps : List (String × Json)
  componentCode : String

/-- The module-level `fallbackSpec` constant. -/
def fallbackSpec : GeneratedVideoSpec :=
  { title := "Generated Remotion Video"
    width := 1280
    height := 720
    fps := 30
    durationInFrames := 300
    inputProps := []
    componentCode := "" }

/-- `normalizeSpec` from the source. `Math.ceil(normalizedFps * minSeconds)`
is applied to a product of integers, hence is that product itself.
`spec.inputProps || {}` is the identity because a JavaScript object
(including the empty object) is always truthy. -/
def normalizeSpec (spec : GeneratedVideoSpec) : GeneratedVideoSpec :=
  let normalizedFps : Int := max 12 (min 60 (jsOrInt spec.fps fallbackSpec.fps))
  let minSeconds : Int := 6
  let normalizedDuration : Int :=
    max (max 45 (min 1800 (jsOrInt spec.durationInFrames fallbackSpec.durationInFrames)))
      (normalizedFps * minSeconds)
  { title := jsOrStr spec.title fallbackSpec.title
    width := max 320 (min 3840 (jsOrInt spec.width fallbackSpec.width))
    height := max 240 (min 2160 (jsOrInt spec.height fallbackSpec.height))
    fps := normalizedFps
    durationInFrames := normalizedDuration
    inputProps := spec.inputProps
    componentCode := spec.componentCode }

lemma normalizeSpec_fps_bounds (spec : GeneratedVideoSpec) :
    12 ≤ (normalizeSpec spec).fps ∧ (normalizeSpec spec).fps ≤ 60 := by
  simp only [normalizeSpec, jsOrInt, fallbackSpec]
  split <;> omega

lemma normalizeSpec_duration_bounds (spec : GeneratedVideoSpec) :
    45 ≤ (normalizeSpec spec).durationInFrames ∧
      (normalizeSpec spec).durationInFrames ≤ 1800 ∧
      6 * (normalizeSpec spec).fps ≤ (normalizeSpec spec).durationInFrames := by
  simp only [normalizeSpec, jsOrInt, fallbackSpec]
  split <;> split <;> omega

lemma normalizeSpec_width_bounds (spec : GeneratedVideoSpec) :
    320 ≤ (normalizeSpec spec).width ∧ (normalizeSpec spec).width ≤ 3840 := by
  simp only [normalizeSpec, jsOrInt, fallbackSpec]
  split <;> omega

lemma normalizeSpec_height_bounds (spec : GeneratedVideoSpec) :
    240 ≤ (normalizeSpec spec).height ∧ (normalizeSpec spec).height ≤ 2160 := by
  simp only [normalizeSpec, jsOrInt, fallbackSpec]
  split <;> omega

/-- C4: for every input spec, the normalizer's output has
`fps ∈ [12,60]`, `width ∈ [320,3840]`, `height ∈ [240,2160]`,
`durationInFrames ∈ [45,1800]`, and `durationInFrames ≥ ceil(fps' × 6)`
(the ceiling of an integer product being the product itself), so the
stricter of the clamped declared duration and the 6-second floor wins. -/
theorem normalizeSpec_bounds (spec : GeneratedVideoSpec) :
    12 ≤ (normalizeSpec spec).fps ∧ (normalizeSpec spec).fps ≤ 60 ∧
    320 ≤ (normalizeSpec spec).width ∧ (normalizeSpec spec).width ≤ 3840 ∧
    240 ≤ (normalizeSpec spec).height ∧ (normalizeSpec spec).height ≤ 2160 ∧
    45 ≤ (normalizeSpec spec).durationInFrames ∧
    (normalizeSpec spec).durationInFrames ≤ 1800 ∧
    (normalizeSpec spec).fps * 6 ≤ (normalizeSpec spec).durationInFrames := by
  obtain ⟨hf1, hf2⟩ := normalizeSpec_fps_bounds spec
  obtain ⟨hd1, hd2, hd3⟩ := normalizeSpec_duration_bounds spec
  obtain ⟨hw1, hw2⟩ := normalizeSpec_width_bounds spec
  obtain ⟨hh1, hh2⟩ := normalizeSpec_height_bounds spec
  exact ⟨hf1, hf2, hw1, hw2, hh1, hh2, hd1, hd2, by omega⟩

/-- C5: the spec normalizer is idempotent. -/
theorem normalizeSpec_idempotent (spec : GeneratedVideoSpec) :
    normalizeSpec (normalizeSpec spec) = normalizeSpec spec := by
  obtain ⟨hf1, hf2⟩ := normalizeSpec_fps_bounds spec
  obtain ⟨hd1, hd2, hd3⟩ := normalizeSpec_duration_bounds spec
  obtain ⟨hw1, hw2⟩ := normalizeSpec_width_bounds spec
  obtain ⟨hh1, hh2⟩ := normalizeSpec_height_bounds spec
  have htitle : jsOrStr (normalizeSpec spec).title "Generated Remotion Video" =
      (normalizeSpec spec).title := by
    simp only [normalizeSpec, jsOrStr, fallbackSpec]
    split <;> simp
  conv_lhs => rw [normalizeSpec]
  simp only [fallbackSpec] at htitle ⊢
  refine GeneratedVideoSpec.ext htitle ?_ ?_ ?_ ?_ rfl rfl
  · simp only [jsOrInt]
    split <;> omega
  · simp only [jsOrInt]
    split <;> omega
  · simp only [jsOrInt]
    split <;> omega
  · simp only [jsOrInt]
    split <;> split <;> omega

/-- `startsWith` on character lists, used to model JavaScript `String.includes`. -/
def listStartsWith : List Char → List Char → Bool
  | _, [] => true
  | [], _ :: _ => false
  | c :: cs, p :: ps => c = p && listStartsWith cs ps

/-- JavaScript `haystack.includes(needle)` on character lists. -/
def listIncludes : List Char → List Char → Bool
  | [], pat => pat.isEmpty
  | c :: rest, pat => listStartsWith (c :: rest) pat || listIncludes rest pat

/-- JavaScript `s.includes(pat)`. -/
def strIncludes (s pat : String) : Bool := listIncludes s.data pat.data

/-- Lookup in a JSON object: first field with the given key (JavaScript
property access on an object built by `JSON.parse`, whose keys are unique). -/
def propGet : List (String × Json) → String → Option Json
  | [], _ => none
  | p :: rest, k => if p.1 = k then some p.2 else propGet rest k

/-- JavaScript spread `{ ...props, k: v }`: if the key is present its value is
replaced in place, otherwise the key is appended at the end. -/
def setKey (props : List (String × Json)) (k : String) (v : Json) :
    List (String × Json) :=
  if props.any (fun p => p.1 = k) then
    props.map (fun p => if p.1 = k then (k, v) else p)
  else
    props ++ [(k, v)]

/-- The JSON object produced by the model for one video spec, typed by field.
`none` models an absent (`undefined`) field; zod's `.default(...)` applies
exactly then. Fields carry the types the zod schema requires (`.int()`
numerics are `Int`); a value of the wrong JSON type fails the schema for
reasons outside the numeric-range concerns modelled here. -/
structure RawGeneratedVideo where
  title : Option String := none
  width : Option Int := none
  height : Option Int := none
  fps : Option Int := none
  durationInFrames : Option Int := none
  inputProps : Option (List (String × Json)) := none
  componentCode : Option String := none

/-- `generatedVideoSchema.parse`: defaults for absent fields, then bound
checks; `componentCode` is required with length at least 40. String lengths
are counted in characters (the sources are ASCII, where this agrees with
JavaScript's UTF-16 `length`). Returns `none` where zod throws. -/
def generatedVideoSchemaParse (raw : RawGeneratedVideo) :
    Option GeneratedVideoSpec :=
  match raw.componentCode with
  | none => none
  | some code =>
    let title := raw.title.getD "Generated Remotion Video"
    let width := raw.width.getD 1280
    let height := raw.height.getD 720
    let fps := raw.fps.getD 30
    let durationInFrames := raw.durationInFrames.getD 300
    let inputProps := raw.inputProps.getD []
    if 1 ≤ title.length ∧ title.length ≤ 120 ∧
        320 ≤ width ∧ width ≤ 3840 ∧
        240 ≤ height ∧ height ≤ 2160 ∧
        12 ≤ fps ∧ fps ≤ 60 ∧
        45 ≤ durationInFrames ∧ durationInFrames ≤ 1800 ∧
        40 ≤ code.length then
      some { title, width, height, fps, durationInFrames, inputProps,
             componentCode := code }
    else none

/-- `GeneratedStyleBrief` from the source. -/
structure GeneratedStyleBrief where
  variantId : String
  styleName : String
  styleBrief : String
deriving DecidableEq

/-- The error message thrown when `componentCode` lacks a default export. -/
def missingExportMsg (styleName : String) : String :=
  "Generated component code is missing a default export for \"" ++ styleName ++ "\"."

/-- The deterministic core of `generateVideoSpecForStyle`, applied to the
JSON object recovered from the model's reply: schema-validate, normalize,
merge an attached image data URL into `inputProps` under the fixed key
(a JavaScript truthiness test, so the empty string counts as no image),
then require the `"export default"` marker in `componentCode`.
Returns `.error` where the source throws; the schema-failure message
stands in for zod's own. -/
def generateVideoSpecForStyle (raw : RawGeneratedVideo)
    (imageDataUrl : Option String) (style : GeneratedStyleBrief) :
    Except String GeneratedVideoSpec :=
  match generatedVideoSchemaParse raw with
  | none => .error "schema validation failed"
  | some parsed =>
    let parsedSpec := normalizeSpec parsed
    let spec :=
      match imageDataUrl with
      | some url =>
        if url = "" then parsedSpec
        else { parsedSpec with
               inputProps := setKey parsedSpec.inputProps "imageDataUrl" (Json.str url) }
      | none => parsedSpec
    if strIncludes spec.componentCode "export default" then .ok spec
    else .error (missingExportMsg style.styleName)

lemma propGet_setKey_self (props : List (String × Json)) (k : String) (v : Json) :
    propGet (setKey props k v) k = some v := by
  unfold setKey
  split
  case isTrue h =>
    induction props with
    | nil => simp at h
    | cons p rest ih =>
      by_cases hp : p.1 = k
      · simp [propGet, hp]
      · have h' : rest.any (fun p => p.1 = k) = true := by
          simpa [List.any_cons, hp] using h
        simpa [propGet, hp] using ih h'
  case isFalse h =>
    induction props with
    | nil => simp [propGet]
    | cons p rest ih =>
      have hp : ¬ p.1 = k := by
        intro hk
        exact h (by simp [List.any_cons, hk])
      have h' : ¬ rest.any (fun p => p.1 = k) = true := by
        intro hk
        exact h (by simp [List.any_cons, hk])
      simpa [propGet, hp] using ih h'

lemma propGet_map_other (props : List (String × Json)) (k : String) (v : Json)
    (k' : String) (h : k' ≠ k) :
    propGet (props.map (fun p => if p.1 = k then (k, v) else p)) k' =
      propGet props k' := by
  induction props with
  | nil => simp [propGet]
  | cons p rest ih =>
    by_cases hp : p.1 = k
    · have hk : ¬ (k = k') := fun hk => h hk.symm
      have hp' : ¬ p.1 = k' := by rw [hp]; exact hk
      simp [propGet, hp, hk, hp', ih]
    · by_cases hp' : p.1 = k'
      · simp [propGet, hp, hp', h]
      · simp [propGet, hp, hp', ih]

lemma propGet_append_single_other (props : List (String × Json)) (k : String)
    (v : Json) (k' : String) (h : k' ≠ k) :
    propGet (props ++ [(k, v)]) k' = propGet props k' := by
  induction props with
  | nil =>
    have hk : ¬ (k = k') := fun hk => h hk.symm
    simp [propGet, hk]
  | cons p rest ih =>
    by_cases hp' : p.1 = k'
    · simp [propGet, hp']
    · simp [propGet, hp', ih]

lemma propGet_setKey_other (props : List (String × Json)) (k : String) (v : Json)
    (k' : String) (h : k' ≠ k) :
    propGet (setKey props k v) k' = propGet props k' := by
  unfold setKey
  split
  · exact propGet_map_other props k v k' h
  · exact propGet_append_single_other props k v k' h

/-- A sample component code with a default-export marker (length ≥ 40). -/
def sampleComponentCode : String :=
  "export default GeneratedVideoComponentDefinition"

/-- A sample style brief. -/
def sampleStyle : GeneratedStyleBrief :=
  { variantId := "style-1"
    styleName := "Neon Kinetic"
    styleBrief := "High-energy typography with bright gradients and fast transitions." }

/-- A model-produced spec whose `width` is present but above the schema's
3840 upper bound. -/
def widthOutOfRangeRaw : RawGeneratedVideo :=
  { width := some 5000, componentCode := some sampleComponentCode }

/-- C2 counterexample: a spec whose present numeric field `width = 5000` is
out of its declared range is not clamped: it fails zod schema validation,
so spec generation for that style fails. -/
theorem outOfRange_fails_counterexample :
    widthOutOfRangeRaw.width = some 5000 ∧ ¬ (5000 : Int) ≤ 3840 ∧
    generateVideoSpecForStyle widthOutOfRangeRaw none sampleStyle =
      .error "schema validation failed" :=
  ⟨rfl, by omega, rfl⟩

/-- Some numeric field of the raw spec is present but outside its declared
range. -/
def numericFieldOutOfRange (raw : RawGeneratedVideo) : Prop :=
  (∃ w, raw.width = some w ∧ (w < 320 ∨ 3840 < w)) ∨
  (∃ h, raw.height = some h ∧ (h < 240 ∨ 2160 < h)) ∨
  (∃ f, raw.fps = some f ∧ (f < 12 ∨ 60 < f)) ∨
  (∃ d, raw.durationInFrames = some d ∧ (d < 45 ∨ 1800 < d))

/-- C2 amended: spec normalization itself is a total clamping function, but
it runs only after zod schema validation; a model-produced spec with any
numeric field present but out of its declared range fails schema validation,
so spec generation for that style fails rather than clamping. -/
theorem outOfRange_numeric_rejected (raw : RawGeneratedVideo)
    (img : Option String) (st : GeneratedStyleBrief)
    (h : numericFieldOutOfRange raw) :
    generatedVideoSchemaParse raw = none ∧
    generateVideoSpecForStyle raw img st = .error "schema validation failed" := by
  have hp : generatedVideoSchemaParse raw = none := by
    unfold generatedVideoSchemaParse
    cases hc : raw.componentCode with
    | none => rfl
    | some code =>
      simp only
      split
      case isTrue hcond =>
        exfalso
        rcases h with ⟨w, hw, hr⟩ | ⟨v, hv, hr⟩ | ⟨f, hf, hr⟩ | ⟨d, hd, hr⟩
        · rw [hw] at hcond
          simp only [Option.getD_some] at hcond
          omega
        · rw [hv] at hcond
          simp only [Option.getD_some] at hcond
          omega
        · rw [hf] at hcond
          simp only [Option.getD_some] at hcond
          omega
        · rw [hd] at hcond
          simp only [Option.getD_some] at hcond
          omega
      case isFalse _ => rfl
  refine ⟨hp, ?_⟩
  unfold generateVideoSpecForStyle
  rw [hp]

/-- A raw spec whose `fps` is present but above the 60 upper bound. -/
def fpsOutOfRangeRaw : RawGeneratedVideo :=
  { fps := some 200, componentCode := some sampleComponentCode }

theorem outOfRange_numeric_rejected_witness :
    generatedVideoSchemaParse fpsOutOfRangeRaw = none ∧
    generateVideoSpecForStyle fpsOutOfRangeRaw none sampleStyle =
      .error "schema validation failed" :=
  outOfRange_numeric_rejected fpsOutOfRangeRaw none sampleStyle
    (Or.inr (Or.inr (Or.inl ⟨200, rfl, by omega⟩)))

/-- C8: a generated spec that passes schema validation but whose
`componentCode` lacks the `"export default"` marker makes spec generation
fail for that style, with an error message that names the offending style
(the style name occurs verbatim inside the message). -/
theorem missingDefaultExport_fails (raw : RawGeneratedVideo) (img : Option String)
    (st : GeneratedStyleBrief) (spec : GeneratedVideoSpec)
    (hparse : generatedVideoSchemaParse raw = some spec)
    (hcode : strIncludes spec.componentCode "export default" = false) :
    generateVideoSpecForStyle raw img st = .error (missingExportMsg st.styleName) ∧
    ∃ pre post, missingExportMsg st.styleName = pre ++ st.styleName ++ post := by
  refine ⟨?_, "Generated component code is missing a default export for \"", "\".", rfl⟩
  unfold generateVideoSpecForStyle
  rw [hparse]
  cases img with
  | none =>
    dsimp only
    rw [show strIncludes (normalizeSpec spec).componentCode "export default" = false
      from hcode]
    rfl
  | some url =>
    by_cases hu : url = ""
    · dsimp only
      rw [if_pos hu]
      rw [show strIncludes (normalizeSpec spec).componentCode "export default" = false
        from hcode]
      rfl
    · dsimp only
      rw [if_neg hu]
      rw [show strIncludes
          ({ normalizeSpec spec with
             inputProps := setKey (normalizeSpec spec).inputProps "imageDataUrl"
               (Json.str url) } : GeneratedVideoSpec).componentCode
          "export default" = false from hcode]
      rfl

/-- A schema-valid component code without any default-export marker
(length ≥ 40). -/
def noExportComponentCode : String :=
  "const GeneratedVideo is defined here without any default marker"

/-- The raw spec carrying `noExportComponentCode` and defaults elsewhere. -/
def noExportRaw : RawGeneratedVideo :=
  { componentCode := some noExportComponentCode }

/-- The spec `noExportRaw` parses to under the schema. -/
def noExportParsedSpec : GeneratedVideoSpec :=
  { title := "Generated Remotion Video"
    width := 1280
    height := 720
    fps := 30
    durationInFrames := 300
    inputProps := []
    componentCode := noExportComponentCode }

theorem missingDefaultExport_fails_witness :
    generateVideoSpecForStyle noExportRaw none sampleStyle =
      .error (missingExportMsg sampleStyle.styleName) ∧
    ∃ pre post, missingExportMsg sampleStyle.styleName =
      pre ++ sampleStyle.styleName ++ post :=
  missingDefaultExport_fails noExportRaw none sampleStyle noExportParsedSpec rfl rfl

/-- C9: when an image is attached (a nonempty data URL, as the request
schema guarantees), the returned spec's `inputProps` is the model-produced
`inputProps` with the fixed key `imageDataUrl` set to the attached URL —
overwriting any model-produced value at that key, leaving every other key
and every other field of the spec unchanged (the normalizer passes
`inputProps` through) — and with no image attached the spec is returned
unmodified. -/
theorem imageDataUrl_merge (raw : RawGeneratedVideo) (st : GeneratedStyleBrief)
    (url : String) (spec base : GeneratedVideoSpec) (hurl : url ≠ "")
    (hparse : generatedVideoSchemaParse raw = some base)
    (hok : generateVideoSpecForStyle raw (some url) st = .ok spec) :
    propGet spec.inputProps "imageDataUrl" = some (Json.str url) ∧
    (∀ k, k ≠ "imageDataUrl" →
      propGet spec.inputProps k = propGet (normalizeSpec base).inputProps k) ∧
    (normalizeSpec base).inputProps = base.inputProps ∧
    spec.title = (normalizeSpec base).title ∧
    spec.width = (normalizeSpec base).width ∧
    spec.height = (normalizeSpec base).height ∧
    spec.fps = (normalizeSpec base).fps ∧
    spec.durationInFrames = (normalizeSpec base).durationInFrames ∧
    spec.componentCode = (normalizeSpec base).componentCode ∧
    (∀ spec0, generateVideoSpecForStyle raw none st = .ok spec0 →
      spec0 = normalizeSpec base) := by
  unfold generateVideoSpecForStyle at hok
  rw [hparse] at hok
  dsimp only at hok
  rw [if_neg hurl] at hok
  by_cases hinc : strIncludes
      ({ normalizeSpec base with
         inputProps := setKey (normalizeSpec base).inputProps "imageDataUrl"
           (Json.str url) } : GeneratedVideoSpec).componentCode
      "export default" = true
  · rw [if_pos hinc] at hok
    have hspec : ({ normalizeSpec base with
        inputProps := setKey (normalizeSpec base).inputProps "imageDataUrl"
          (Json.str url) } : GeneratedVideoSpec) = spec := by
      injection hok
    subst hspec
    refine ⟨propGet_setKey_self _ _ _,
      fun k hk => propGet_setKey_other _ _ _ k hk,
      rfl, rfl, rfl, rfl, rfl, rfl, rfl, ?_⟩
    intro spec0 h0
    unfold generateVideoSpecForStyle at h0
    rw [hparse] at h0
    dsimp only at h0
    rw [if_pos (show strIncludes (normalizeSpec base).componentCode
      "export default" = true from hinc)] at h0
    injection h0 with h0
    exact h0.symm
  · rw [if_neg hinc] at hok
    cases hok

/-- A sample attached image data URL. -/
def sampleImageUrl : String := "data:image/png;base64,AAAA"

/-- A raw model spec whose `inputProps` already carries a (hallucinated)
`imageDataUrl` value alongside another key. -/
def imageMergeRaw : RawGeneratedVideo :=
  { inputProps := some [("imageDataUrl", Json.str "model-invented"),
      ("caption", Json.str "hello")]
    componentCode := some sampleComponentCode }

/-- The spec `imageMergeRaw` parses to under the schema. -/
def imageMergeBase : GeneratedVideoSpec :=
  { title := "Generated Remotion Video"
    width := 1280
    height := 720
    fps := 30
    durationInFrames := 300
    inputProps := [("imageDataUrl", Json.str "model-invented"),
      ("caption", Json.str "hello")]
    componentCode := sampleComponentCode }

/-- The spec returned when `sampleImageUrl` is attached: the hallucinated
`imageDataUrl` value is overwritten in place. -/
def imageMergeSpec : GeneratedVideoSpec :=
  { imageMergeBase with
    inputProps := [("imageDataUrl", Json.str sampleImageUrl),
      ("caption", Json.str "hello")] }

theorem imageDataUrl_merge_witness :
    propGet imageMergeSpec.inputProps "imageDataUrl" = some (Json.str sampleImageUrl) ∧
    (∀ k, k ≠ "imageDataUrl" →
      propGet imageMergeSpec.inputProps k =
        propGet (normalizeSpec imageMergeBase).inputProps k) ∧
    (normalizeSpec imageMergeBase).inputProps = imageMergeBase.inputProps ∧
    imageMergeSpec.title = (normalizeSpec imageMergeBase).title ∧
    imageMergeSpec.width = (normalizeSpec imageMergeBase).width ∧
    imageMergeSpec.height = (normalizeSpec imageMergeBase).height ∧
    imageMergeSpec.fps = (normalizeSpec imageMergeBase).fps ∧
    imageMergeSpec.durationInFrames = (normalizeSpec imageMergeBase).durationInFrames ∧
    imageMergeSpec.componentCode = (normalizeSpec imageMergeBase).componentCode ∧
    (∀ spec0, generateVideoSpecForStyle imageMergeRaw none sampleStyle = .ok spec0 →
      spec0 = normalizeSpec imageMergeBase) :=
  imageDataUrl_merge imageMergeRaw sampleStyle sampleImageUrl imageMergeSpec
    imageMergeBase (by decide) rfl rfl

/-- JavaScript whitespace for `trim` / `\s` (ASCII whitespace plus vertical
tab, form feed and no-break space; other exotic Unicode spaces do not occur
in this pipeline's data). -/
def jsWhitespace (c : Char) : Bool :=
  c.isWhitespace || c = Char.ofNat 11 || c = Char.ofNat 12 || c = Char.ofNat 160

/-- JavaScript `s.trim()`. -/
def jsTrim (s : String) : String :=
  ⟨((s.data.dropWhile jsWhitespace).reverse.dropWhile jsWhitespace).reverse⟩

/-- JavaScript `s.toLowerCase()` (character-wise, which agrees with
JavaScript on the ASCII names this pipeline handles). -/
def jsToLower (s : String) : String := ⟨s.data.map Char.toLower⟩

/-- One element of the model's `styles` array after zod validation
(`styleBriefDraftSchema`): both strings are trimmed, `styleName` has
length 1–80 and `styleBrief` length 20–800. -/
structure StyleDraft where
  styleName : String
  styleBrief : String
deriving DecidableEq

/-- `styleBriefDraftSchema.parse` on one JSON element. -/
def styleBriefDraftParse (j : Json) : Option StyleDraft :=
  match j with
  | .obj fields =>
    match propGet fields "styleName", propGet fields "styleBrief" with
    | some (.str n), some (.str b) =>
      let n2 := jsTrim n
      let b2 := jsTrim b
      if 1 ≤ n2.length ∧ n2.length ≤ 80 ∧ 20 ≤ b2.length ∧ b2.length ≤ 800 then
        some { styleName := n2, styleBrief := b2 }
      else none
    | _, _ => none
  | _ => none

/-- `` `${baseName} (${suffix})` `` from the dedup loop. -/
def styleNameWithSuffix (baseName : String) (suffix : Nat) : String :=
  baseName ++ " (" ++ toString suffix ++ ")"

/-- The `while (usedStyleNames.has(resolvedName.toLowerCase()))` loop,
starting at a given suffix. The loop always terminates because successive
candidates are pairwise distinct and the used-name set is finite, so a fuel
of `used.length + 1` candidates is always sufficient. -/
def resolveStyleNameFrom (used : List String) (baseName : String) :
    Nat → Nat → String
  | suffix, 0 => styleNameWithSuffix baseName suffix
  | suffix, fuel + 1 =>
    let cand := styleNameWithSuffix baseName suffix
    if used.contains (jsToLower cand) then
      resolveStyleNameFrom used baseName (suffix + 1) fuel
    else cand

/-- Resolve one style name against the set of lowercased used names. -/
def resolveStyleName (used : List String) (baseName : String) : String :=
  if used.contains (jsToLower baseName) then
    resolveStyleNameFrom used baseName 2 (used.length + 1)
  else baseName

/-- The `rawStyles.forEach` body of `parseStyleBriefs`: per-index base name
(falling back to `Style N` when the trimmed name is empty — JavaScript `||`),
case-insensitive collision resolution, positional `variantId`s. -/
def dedupStyleBriefs : List StyleDraft → Nat → List String → List GeneratedStyleBrief
  | [], _, _ => []
  | d :: rest, index, used =>
    let baseName := jsOrStr (jsTrim d.styleName) ("Style " ++ toString (index + 1))
    let resolvedName := resolveStyleName used baseName
    { variantId := "style-" ++ toString (index + 1)
      styleName := resolvedName
      styleBrief := d.styleBrief } ::
      dedupStyleBriefs rest (index + 1) (jsToLower resolvedName :: used)

/-- `parseStyleBriefs` applied to the JSON value recovered from the model's
reply: accept a top-level array or an object with a `styles` array, require
exactly `count` elements, validate each against the draft schema (one bad
element fails the whole batch), then assign `variantId`s and deduplicate
names. `.error` stands for the thrown exceptions (the zod message for a
failed element is abbreviated). -/
def parseStyleBriefs (parsed : Json) (count : Nat) :
    Except String (List GeneratedStyleBrief) :=
  match (match parsed with
    | .arr xs => some xs
    | .obj fields =>
      match propGet fields "styles" with
      | some (.arr xs) => some xs
      | _ => none
    | _ => none) with
  | none => .error "Copilot did not return a valid \"styles\" array."
  | some rawStyles =>
    if rawStyles.length ≠ count then
      .error ("Expected exactly " ++ toString count ++ " styles but received " ++
        toString rawStyles.length ++ ".")
    else
      match rawStyles.mapM styleBriefDraftParse with
      | none => .error "style brief validation failed"
      | some drafts => .ok (dedupStyleBriefs drafts 0 [])

/-- A valid 54-character style brief reused across the dedup batch. -/
def boldBrief : String := "A bold, high-contrast direction with powerful motion."

/-- A model reply with three briefs named `Bold`, `bold`, `Bold`. -/
def boldStylesJson : Json :=
  Json.arr
    [Json.obj [("styleName", Json.str "Bold"), ("styleBrief", Json.str boldBrief)],
     Json.obj [("styleName", Json.str "bold"), ("styleBrief", Json.str boldBrief)],
     Json.obj [("styleName", Json.str "Bold"), ("styleBrief", Json.str boldBrief)]]

/-- C3 counterexample: on briefs named `["Bold","bold","Bold"]` the dedup
does NOT produce `["Bold","Bold (2)","Bold (3)"]` — the suffix is appended
to each brief's own case-preserved base name, so the second name keeps its
lowercase base. -/
theorem styleDedup_counterexample :
    (parseStyleBriefs boldStylesJson 3).toOption.map
        (fun briefs => briefs.map GeneratedStyleBrief.styleName) ≠
      some ["Bold", "Bold (2)", "Bold (3)"] := by
  decide

/-- C3 amended: on briefs named `["Bold","bold","Bold"]` the dedup produces
`["Bold","bold (2)","Bold (3)"]` — collision detection is case-insensitive,
each brief's own trimmed, case-preserved name is the base, and collisions
append `" (2)"`, `" (3)"`, …; `variantId`s are positional. -/
theorem styleDedup_caseInsensitive_ownBase :
    parseStyleBriefs boldStylesJson 3 =
      .ok [{ variantId := "style-1", styleName := "Bold", styleBrief := boldBrief },
           { variantId := "style-2", styleName := "bold (2)", styleBrief := boldBrief },
           { variantId := "style-3", styleName := "Bold (3)", styleBrief := boldBrief }] := by
  rfl

/-- The backtick character. -/
def btick : Char := Char.ofNat 96

/-- The `\x7b` character. -/
def openBraceChar : Char := Char.ofNat 123

/-- The `\x7d` character. -/
def closeBraceChar : Char := Char.ofNat 125

/-- Split at the first occurrence of a triple backtick: returns the content
before it and the remainder after it. -/
def splitOnTriple : List Char → Option (List Char × List Char)
  | [] => none
  | c :: cs =>
    if c = btick ∧ cs.take 2 = [btick, btick] then some ([], cs.drop 2)
    else
      match splitOnTriple cs with
      | some (pre, post) => some (c :: pre, post)
      | none => none

/-- Drop an optional case-insensitive `json` tag right after an opening
fence (the regex alternative `(?:json)?`; taking the tag never loses a
match because the four tag letters contain no backtick). -/
def dropJsonTag (cs : List Char) : List Char :=
  match cs with
  | a :: b :: c :: d :: rest =>
    if a.toLower = 'j' ∧ b.toLower = 's' ∧ c.toLower = 'o' ∧ d.toLower = 'n' then rest
    else cs
  | _ => cs

/-- All fenced-block contents matched left to right by the source's
`/(triple-backtick)(?:json)?\s*([^]*?)(triple-backtick)/gi` regex: after an
opening fence, skip the optional tag and leading whitespace, capture lazily
up to the next closing fence, and continue after it. Each iteration consumes
at least the six fence characters, so a fuel of the input length is always
sufficient. -/
def fenceBlocksAux : Nat → List Char → List String
  | 0, _ => []
  | fuel + 1, cs =>
    match splitOnTriple cs with
    | none => []
    | some (_, rem) =>
      let body := (dropJsonTag rem).dropWhile jsWhitespace
      match splitOnTriple body with
      | none => []
      | some (content, rest) => (⟨content⟩ : String) :: fenceBlocksAux fuel rest

/-- All fenced-block contents of a string. -/
def fenceBlocks (cs : List Char) : List String := fenceBlocksAux cs.length cs

/-- First non-`none` element of a list of attempts. -/
def firstSome {α : Type} : List (Option α) → Option α
  | [] => none
  | o :: rest =>
    match o with
    | some v => some v
    | none => firstSome rest

/-- The fenced-block loop of `parseJsonCandidate`: trim each block's
content, skip empty candidates, return the first that parses. -/
def tryFences (p : String → Option Json) : List String → Option Json
  | [] => none
  | b :: rest =>
    let candidate := jsTrim b
    if candidate = "" then tryFences p rest
    else
      match p candidate with
      | some v => some v
      | none => tryFences p rest

/-- JavaScript `indexOf` for a character (`none` for `-1`). -/
def jsIndexOf (cs : List Char) (c : Char) : Option Nat :=
  cs.findIdx? (fun x => x = c)

/-- JavaScript `lastIndexOf` for a character (`none` for `-1`). -/
def jsLastIndexOf (cs : List Char) (c : Char) : Option Nat :=
  (cs.reverse.findIdx? (fun x => x = c)).map (fun i => cs.length - 1 - i)

/-- The final fallback of `parseJsonCandidate`: parse the slice from the
first `\x7b` to the last `\x7d`, provided both exist in that order. -/
def braceSlice (p : String → Option Json) (trimmed : String) : Option Json :=
  match jsIndexOf trimmed.data openBraceChar,
      jsLastIndexOf trimmed.data closeBraceChar with
  | some firstBrace, some lastBrace =>
    if firstBrace < lastBrace then
      p ⟨(trimmed.data.drop firstBrace).take (lastBrace + 1 - firstBrace)⟩
    else none
  | _, _ => none

/-- `parseJsonCandidate` from the source, parameterized by `JSON.parse`
(`p`, with `none` for a thrown `SyntaxError`): direct parse of the trimmed
text, then fenced blocks in order, then the brace slice; `none` models both
the final explicit throw and a failing unguarded brace-slice parse. -/
def parseJsonCandidate (p : String → Option Json) (content : String) : Option Json :=
  let trimmed := jsTrim content
  match p trimmed with
  | some v => some v
  | none =>
    match tryFences p (fenceBlocks trimmed.data) with
    | some v => some v
    | none => braceSlice p trimmed

lemma tryFences_eq_firstSome (p : String → Option Json) (hp : p "" = none) :
    ∀ blocks : List String,
      tryFences p blocks = firstSome (blocks.map (fun b => p (jsTrim b)))
  | [] => rfl
  | b :: rest => by
    by_cases hb : jsTrim b = ""
    · simp only [tryFences, hb, if_pos rfl, List.map_cons, firstSome, hb, hp]
      exact tryFences_eq_firstSome p hp rest
    · simp only [tryFences, if_neg hb, List.map_cons, firstSome]
      cases hpb : p (jsTrim b) with
      | some v => rfl
      | none => exact tryFences_eq_firstSome p hp rest

lemma firstSome_map_eq_none_iff {α β : Type} (f : α → Option β) :
    ∀ l : List α, firstSome (l.map f) = none ↔ ∀ b ∈ l, f b = none
  | [] => by simp [firstSome]
  | a :: rest => by
    simp only [List.map_cons, firstSome]
    cases hfa : f a with
    | some v =>
      constructor
      · intro h
        cases h
      · intro h
        exact absurd hfa (by simp [h a (by simp)])
    | none =>
      rw [firstSome_map_eq_none_iff f rest]
      constructor
      · intro h b hb
        rcases List.mem_cons.mp hb with hb | hb
        · rw [hb]
          exact hfa
        · exact h b hb
      · intro h b hb
        exact h b (List.mem_cons_of_mem a hb)

/-- C6: for every input string (and any `JSON.parse` behaviour that fails
on the empty string, as the real one does), the extractor equals the
ordered first-success chain of its three strategies — direct parse of the
trimmed text, each fenced block's inner content in source order, then the
first-`\x7b`-to-last-`\x7d` slice — and it fails exactly when no strategy
recovers a JSON value. -/
theorem parseJsonCandidate_strategies (p : String → Option Json)
    (hp : p "" = none) (content : String) :
    parseJsonCandidate p content =
      firstSome [p (jsTrim content),
        firstSome ((fenceBlocks (jsTrim content).data).map (fun b => p (jsTrim b))),
        braceSlice p (jsTrim content)] ∧
    (parseJsonCandidate p content = none ↔
      p (jsTrim content) = none ∧
      (∀ b ∈ fenceBlocks (jsTrim content).data, p (jsTrim b) = none) ∧
      braceSlice p (jsTrim content) = none) := by
  have heq : parseJsonCandidate p content =
      firstSome [p (jsTrim content),
        firstSome ((fenceBlocks (jsTrim content).data).map (fun b => p (jsTrim b))),
        braceSlice p (jsTrim content)] := by
    unfold parseJsonCandidate
    dsimp only
    rw [tryFences_eq_firstSome p hp]
    cases hd : p (jsTrim content) with
    | some v => rfl
    | none =>
      simp only [firstSome]
      cases hf : firstSome ((fenceBlocks (jsTrim content).data).map
          (fun b => p (jsTrim b))) with
      | some v => rfl
      | none =>
        cases hb : braceSlice p (jsTrim content) <;> simp [hb]
  refine ⟨heq, ?_⟩
  rw [heq]
  simp only [firstSome]
  cases hd : p (jsTrim content) with
  | some v => simp [hd]
  | none =>
    cases hf : firstSome ((fenceBlocks (jsTrim content).data).map
        (fun b => p (jsTrim b))) with
    | some v =>
      constructor
      · intro h
        cases h
      · intro h
        rw [(firstSome_map_eq_none_iff (fun b => p (jsTrim b)) _).mpr h.2.1] at hf
        cases hf
    | none =>
      have hall := (firstSome_map_eq_none_iff (fun b => p (jsTrim b)) _).mp hf
      cases hb : braceSlice p (jsTrim content) with
      | some v => simp [hb, hall]
      | none =>
        simp [hb]
        exact hall

/-- A concrete `JSON.parse` stand-in recognizing exactly the text `\x7b\x7d`
(the empty JSON object) and failing on everything else. -/
def wParse (s : String) : Option Json :=
  if s = "\x7b\x7d" then some (Json.obj []) else none

/-- A model reply wrapping its JSON in a tagged fence amid prose. -/
def wExtractText : String :=
  "Here is the spec: ```json\n\x7b\x7d\n``` done"

theorem parseJsonCandidate_strategies_witness :
    parseJsonCandidate wParse wExtractText =
      firstSome [wParse (jsTrim wExtractText),
        firstSome ((fenceBlocks (jsTrim wExtractText).data).map
          (fun b => wParse (jsTrim b))),
        braceSlice wParse (jsTrim wExtractText)] ∧
    (parseJsonCandidate wParse wExtractText = none ↔
      wParse (jsTrim wExtractText) = none ∧
      (∀ b ∈ fenceBlocks (jsTrim wExtractText).data, wParse (jsTrim b) = none) ∧
      braceSlice wParse (jsTrim wExtractText) = none) :=
  parseJsonCandidate_strategies wParse rfl wExtractText

/-- Characters the slug keeps: `[a-z0-9]`. -/
def isSlugChar (c : Char) : Bool :=
  c.isDigit || (97 ≤ c.toNat && c.toNat ≤ 122)

/-- `replace(/[^a-z0-9]+/g, "-")`: each maximal run of non-slug characters
becomes a single hyphen. -/
def collapseNonSlug : List Char → List Char
  | [] => []
  | c :: rest =>
    if isSlugChar c then c :: collapseNonSlug rest
    else '-' :: collapseNonSlug (rest.dropWhile (fun x => !isSlugChar x))
termination_by l => l.length
decreasing_by
  · simp only [List.length_cons]
    omega
  · simp only [List.length_cons]
    exact Nat.lt_succ_of_le (List.Sublist.length_le (List.dropWhile_sublist _))

/-- `toSlug` from the source: lowercase, collapse non-alphanumeric runs to
hyphens, strip leading/trailing hyphens, fall back to `"style"`. -/
def toSlug (value : String) : String :=
  let collapsed := collapseNonSlug (jsToLower value).data
  let stripped :=
    ((collapsed.dropWhile (fun c => c = '-')).reverse.dropWhile
      (fun c => c = '-')).reverse
  jsOrStr ⟨stripped⟩ "style"

/-- The job identity `requestId-variantId-slug`. -/
def jobIdOf (requestId variantId styleName : String) : String :=
  requestId ++ "-" ++ variantId ++ "-" ++ toSlug styleName

/-- The per-job workspace `path.join(cwd, ".generated", "jobs", requestId,
variantId)`. -/
def jobsDirOf (cwd requestId variantId : String) : String :=
  cwd ++ "/.generated/jobs/" ++ requestId ++ "/" ++ variantId

/-- The output file `path.join(cwd, "public", "renders", jobId + ".mp4")`. -/
def outputPathOf (cwd requestId variantId styleName : String) : String :=
  cwd ++ "/public/renders/" ++ jobIdOf requestId variantId styleName ++ ".mp4"

/-- The public URL `/renders/jobId.mp4`. -/
def videoUrlOf (requestId variantId styleName : String) : String :=
  "/renders/" ++ jobIdOf requestId variantId styleName ++ ".mp4"

/-- Lowercase hexadecimal digit. -/
def isLowerHexChar (c : Char) : Bool :=
  c.isDigit || (97 ≤ c.toNat && c.toNat ≤ 102)

/-- The `randomUUID` output shape: 36 characters, hyphens at positions
8, 13, 18 and 23, lowercase hex digits elsewhere. -/
def uuidFormat (s : String) : Bool :=
  (s.data.length == 36) &&
    (List.range 36).all (fun i =>
      if i == 8 || i == 13 || i == 18 || i == 23 then s.data.getD i ' ' == '-'
      else isLowerHexChar (s.data.getD i ' '))

/-- The `style-N` shape of generated `variantId`s: the literal prefix
`style-` followed by a nonempty digit string. -/
def isVariantIdFormat (s : String) : Bool :=
  (s.data.take 6 == ['s', 't', 'y', 'l', 'e', '-']) &&
    (!(s.data.drop 6).isEmpty) && (s.data.drop 6).all Char.isDigit

lemma uuidFormat_length {s : String} (h : uuidFormat s = true) :
    s.data.length = 36 := by
  simp only [uuidFormat, Bool.and_eq_true, beq_iff_eq] at h
  exact h.1

lemma variantIdFormat_parts {s : String} (h : isVariantIdFormat s = true) :
    s.data = ['s', 't', 'y', 'l', 'e', '-'] ++ s.data.drop 6 ∧
      (∀ c ∈ s.data.drop 6, c.isDigit) := by
  simp only [isVariantIdFormat, Bool.and_eq_true, beq_iff_eq, List.all_eq_true] at h
  refine ⟨?_, h.2⟩
  conv_lhs => rw [← List.take_append_drop 6 s.data]
  rw [h.1.1]

lemma append_sep_inj (c : Char) :
    ∀ (l1 l2 t1 t2 : List Char), c ∉ l1 → c ∉ l2 →
      l1 ++ c :: t1 = l2 ++ c :: t2 → l1 = l2 ∧ t1 = t2 := by
  intro l1
  induction l1 with
  | nil =>
    intro l2 t1 t2 h1 h2 h
    cases l2 with
    | nil => simpa using h
    | cons y l2 =>
      simp only [List.nil_append, List.cons_append, List.cons.injEq] at h
      exact absurd (h.1 ▸ List.mem_cons_self y l2) h2
  | cons x l1 ih =>
    intro l2 t1 t2 h1 h2 h
    cases l2 with
    | nil =>
      simp only [List.cons_append, List.nil_append, List.cons.injEq] at h
      exact absurd (h.1 ▸ List.mem_cons_self x l1) h1
    | cons y l2 =>
      simp only [List.cons_append, List.cons.injEq] at h
      obtain ⟨hxy, h2'⟩ := h
      have hn1 : c ∉ l1 := fun hc => h1 (List.mem_cons_of_mem x hc)
      have hn2 : c ∉ l2 := fun hc => h2 (List.mem_cons_of_mem y hc)
      obtain ⟨he, ht⟩ := ih l2 t1 t2 hn1 hn2 h2'
      exact ⟨by rw [hxy, he], ht⟩

/-- C7: for any two render inputs whose `(requestId, variantId)` pairs
differ — requestIds being UUID strings and variantIds of the `style-N`
shape — the derived job workspace directories differ and the derived
output file paths differ, for any style names (in particular even when the
two style names slugify to the same slug). -/
theorem renderPaths_distinct (cwd r1 v1 n1 r2 v2 n2 : String)
    (hu1 : uuidFormat r1 = true) (hu2 : uuidFormat r2 = true)
    (hv1 : isVariantIdFormat v1 = true) (hv2 : isVariantIdFormat v2 = true)
    (hne : ¬(r1 = r2 ∧ v1 = v2)) :
    jobsDirOf cwd r1 v1 ≠ jobsDirOf cwd r2 v2 ∧
    outputPathOf cwd r1 v1 n1 ≠ outputPathOf cwd r2 v2 n2 := by
  have hl1 := uuidFormat_length hu1
  have hl2 := uuidFormat_length hu2
  constructor
  · intro h
    have hd : (jobsDirOf cwd r1 v1).data = (jobsDirOf cwd r2 v2).data := by rw [h]
    simp only [jobsDirOf, String.data_append, List.append_assoc,
      List.singleton_append] at hd
    have hd2 := List.append_cancel_left (List.append_cancel_left hd)
    obtain ⟨hr, hv⟩ := List.append_inj hd2 (hl1.trans hl2.symm)
    simp only [List.cons.injEq, true_and] at hv
    exact hne ⟨String.ext hr, String.ext hv⟩
  · intro h
    have hd : (outputPathOf cwd r1 v1 n1).data = (outputPathOf cwd r2 v2 n2).data := by
      rw [h]
    simp only [outputPathOf, jobIdOf, String.data_append, List.append_assoc,
      List.singleton_append, List.cons_append, List.nil_append] at hd
    have hd2 := List.append_cancel_left hd
    simp only [List.cons.injEq, true_and] at hd2
    obtain ⟨hr, hv⟩ := List.append_inj hd2 (hl1.trans hl2.symm)
    simp only [List.cons.injEq, true_and] at hv
    obtain ⟨hp1, hdig1⟩ := variantIdFormat_parts hv1
    obtain ⟨hp2, hdig2⟩ := variantIdFormat_parts hv2
    rw [hp1, hp2] at hv
    simp only [List.append_assoc, List.cons_append, List.nil_append,
      List.cons.injEq, true_and] at hv
    have hv2' := hv
    have hnm1 : ('-' : Char) ∉ v1.data.drop 6 := fun hc => by
      have := hdig1 _ hc
      simp at this
    have hnm2 : ('-' : Char) ∉ v2.data.drop 6 := fun hc => by
      have := hdig2 _ hc
      simp at this
    obtain ⟨hds, _⟩ := append_sep_inj '-' _ _ _ _ hnm1 hnm2 hv2'
    have hveq : v1 = v2 := String.ext (by rw [hp1, hp2, hds])
    exact hne ⟨String.ext hr, hveq⟩

/-- A concrete `randomUUID`-shaped request id. -/
def wRequestUuid : String := "1f2a3b4c-5d6e-4f70-8a9b-0c1d2e3f4a5b"

theorem renderPaths_distinct_witness :
    jobsDirOf "/app" wRequestUuid "style-1" ≠ jobsDirOf "/app" wRequestUuid "style-2" ∧
    outputPathOf "/app" wRequestUuid "style-1" "Neon Kinetic" ≠
      outputPathOf "/app" wRequestUuid "style-2" "neon-kinetic" :=
  renderPaths_distinct "/app" wRequestUuid "style-1" "Neon Kinetic"
    wRequestUuid "style-2" "neon-kinetic" (by decide) (by decide) (by decide)
    (by decide) (by decide)

/-- `VideoSpecGenerationResult`: per-style outcome of the spec-generation
batch. (The source's success record also carries the raw model reply, which
the orchestrator's correlation never reads; it is omitted here together
with the abstracted model round trip.) -/
inductive VideoSpecGenerationResult where
  | succeeded (style : GeneratedStyleBrief) (spec : GeneratedVideoSpec)
  | failed (style : GeneratedStyleBrief) (error : String)

/-- The `style` field both constructors carry. -/
def VideoSpecGenerationResult.style : VideoSpecGenerationResult → GeneratedStyleBrief
  | .succeeded st _ => st
  | .failed st _ => st

/-- `generateVideoSpecForStyle` including the model round trip: `modelOut`
abstracts `runCopilotPrompt` + `parseJsonCandidate` + the structural typing
of the JSON object for one style (its `.error` covers service errors,
timeouts and unparseable output). -/
def generateVideoSpecForStyleIO
    (modelOut : GeneratedStyleBrief → Except String RawGeneratedVideo)
    (imageDataUrl : Option String) (style : GeneratedStyleBrief) :
    Except String GeneratedVideoSpec :=
  match modelOut style with
  | .error e => .error e
  | .ok raw => generateVideoSpecForStyle raw imageDataUrl style

/-- The `styles.map(async (style) => { try ... catch ... })` body. -/
def specResultFor (modelOut : GeneratedStyleBrief → Except String RawGeneratedVideo)
    (imageDataUrl : Option String) (style : GeneratedStyleBrief) :
    VideoSpecGenerationResult :=
  match generateVideoSpecForStyleIO modelOut imageDataUrl style with
  | .ok spec => .succeeded style spec
  | .error e => .failed style e

/-- `generateVideoSpecsForStyles`: settle the per-style generations; every
failure is caught, so the combinator always returns one result per style
(`Promise.all` over non-rejecting promises). -/
def generateVideoSpecsForStyles
    (modelOut : GeneratedStyleBrief → Except String RawGeneratedVideo)
    (imageDataUrl : Option String) (styles : List GeneratedStyleBrief) :
    List VideoSpecGenerationResult :=
  styles.map (specResultFor modelOut imageDataUrl)

/-- `RenderVariantInput` from the source. -/
structure RenderVariantInput where
  requestId : String
  variantId : String
  styleName : String
  spec : GeneratedVideoSpec

/-- The `metadata` record of a render success. -/
structure RenderMetadata where
  title : String
  width : Int
  height : Int
  fps : Int
  durationInFrames : Int

/-- `RenderVariantResult` from the source. -/
inductive RenderVariantResult where
  | succeeded (variantId styleName jobId videoUrl outputPath : String)
      (metadata : RenderMetadata)
  | failed (variantId styleName error : String)

/-- The `variantId` field both constructors carry. -/
def RenderVariantResult.variantId : RenderVariantResult → String
  | .succeeded vid _ _ _ _ _ => vid
  | .failed vid _ _ => vid

/-- The `styleName` field both constructors carry. -/
def RenderVariantResult.styleName : RenderVariantResult → String
  | .succeeded _ n _ _ _ _ => n
  | .failed _ n _ => n

/-- `renderRemotionVideoVariant`: `engine` abstracts the filesystem writes,
bundling, composition resolution and rendering (everything that can throw);
on success the result carries the derived job id, public URL, output path
and the spec's echoed metadata. -/
def renderRemotionVideoVariant (engine : RenderVariantInput → Except String Unit)
    (cwd : String) (input : RenderVariantInput) : Except String RenderVariantResult :=
  match engine input with
  | .error e => .error e
  | .ok _ =>
    .ok (.succeeded input.variantId input.styleName
      (jobIdOf input.requestId input.variantId input.styleName)
      (videoUrlOf input.requestId input.variantId input.styleName)
      (outputPathOf cwd input.requestId input.variantId input.styleName)
      { title := input.spec.title
        width := input.spec.width
        height := input.spec.height
        fps := input.spec.fps
        durationInFrames := input.spec.durationInFrames })

/-- The `variants.map(async (variant) => { try ... catch ... })` body. -/
def renderResultFor (engine : RenderVariantInput → Except String Unit)
    (cwd : String) (variant : RenderVariantInput) : RenderVariantResult :=
  match renderRemotionVideoVariant engine cwd variant with
  | .ok r => r
  | .error e => .failed variant.variantId variant.styleName e

/-- `renderRemotionVideoVariants`: settle the per-variant renders; every
failure is caught, so the combinator always returns one result per input. -/
def renderRemotionVideoVariants (engine : RenderVariantInput → Except String Unit)
    (cwd : String) (variants : List RenderVariantInput) : List RenderVariantResult :=
  variants.map (renderResultFor engine cwd)

/-- `new Map(entries).get(key)`: for duplicate keys the last entry wins. -/
def jsMapGet {β : Type} (entries : List (String × β)) (key : String) : Option β :=
  (entries.reverse.find? (fun e => e.1 == key)).map (fun e => e.2)

/-- One element of the handler's `variants` response array. -/
inductive VariantResponse where
  | succeeded (variantId styleName styleBrief jobId videoUrl : String)
      (metadata : RenderMetadata)
  | failed (variantId styleName styleBrief error : String)

/-- `variant.status === "succeeded"`. -/
def VariantResponse.isSucceeded : VariantResponse → Bool
  | .succeeded _ _ _ _ _ _ => true
  | .failed _ _ _ _ => false

/-- The `jobId` of a succeeded variant. -/
def VariantResponse.jobIdOpt : VariantResponse → Option String
  | .succeeded _ _ _ j _ _ => some j
  | .failed _ _ _ _ => none

/-- The `videoUrl` of a succeeded variant. -/
def VariantResponse.videoUrlOpt : VariantResponse → Option String
  | .succeeded _ _ _ _ u _ => some u
  | .failed _ _ _ _ => none

/-- The `metadata` of a succeeded variant. -/
def VariantResponse.metadataOpt : VariantResponse → Option RenderMetadata
  | .succeeded _ _ _ _ _ m => some m
  | .failed _ _ _ _ => none

/-- The JSON body + HTTP status the handler responds with after the brief
stage succeeded. -/
structure PostResponse where
  ok : Bool
  status : Nat
  requestId : String
  jobId : Option String
  videoUrl : Option String
  metadata : Option RenderMetadata
  variants : List VariantResponse
  error : Option String

/-- The render input the handler builds for one spec success
(`{ requestId, variantId: result.style.variantId, styleName:
result.style.styleName, spec: result.spec }`). -/
def renderInputFor (requestId : String) (style : GeneratedStyleBrief)
    (spec : GeneratedVideoSpec) : RenderVariantInput :=
  { requestId := requestId, variantId := style.variantId,
    styleName := style.styleName, spec := spec }

/-- The handler's `variants` array (source lines building `variants` from
`styleBriefs`, `specResultByVariantId` and `renderResultByVariantId`). -/
def postVariantsList (modelOut : GeneratedStyleBrief → Except String RawGeneratedVideo)
    (engine : RenderVariantInput → Except String Unit) (cwd requestId : String)
    (imageDataUrl : Option String) (styleBriefs : List GeneratedStyleBrief) :
    List VariantResponse :=
  let specResults := generateVideoSpecsForStyles modelOut imageDataUrl styleBriefs
  let renderInputs := specResults.filterMap (fun r =>
    match r with
    | .succeeded style spec => some (renderInputFor requestId style spec)
    | .failed _ _ => none)
  let renderResults := renderRemotionVideoVariants engine cwd renderInputs
  styleBriefs.map (fun styleBrief =>
    match jsMapGet (specResults.map (fun r => (r.style.variantId, r)))
        styleBrief.variantId with
    | none => VariantResponse.failed styleBrief.variantId styleBrief.styleName
        styleBrief.styleBrief "Video spec generation did not return a result."
    | some (.failed _ e) => VariantResponse.failed styleBrief.variantId
        styleBrief.styleName styleBrief.styleBrief e
    | some (.succeeded _ _) =>
      match jsMapGet (renderResults.map (fun r => (r.variantId, r)))
          styleBrief.variantId with
      | none => VariantResponse.failed styleBrief.variantId styleBrief.styleName
          styleBrief.styleBrief "Render did not complete for this style."
      | some (.failed _ _ e) => VariantResponse.failed styleBrief.variantId
          styleBrief.styleName styleBrief.styleBrief
          (jsOrStr e "Render did not complete for this style.")
      | some (.succeeded _ _ jobId videoUrl _ metadata) =>
        VariantResponse.succeeded styleBrief.variantId styleBrief.styleName
          styleBrief.styleBrief jobId videoUrl metadata)

/-- The orchestrating POST handler after the brief stage: spec fan-out,
render fan-out over spec successes only, correlation back into brief order,
and the final response (`ok`/status 200 with first-success convenience
fields, or `ok: false`/status 500 with the full per-variant breakdown). -/
def postOrchestrate (modelOut : GeneratedStyleBrief → Except String RawGeneratedVideo)
    (engine : RenderVariantInput → Except String Unit) (cwd requestId : String)
    (imageDataUrl : Option String) (styleBriefs : List GeneratedStyleBrief) :
    PostResponse :=
  let variants := postVariantsList modelOut engine cwd requestId imageDataUrl styleBriefs
  match (variants.filter VariantResponse.isSucceeded).head? with
  | none =>
    { ok := false, status := 500, requestId := requestId, jobId := none,
      videoUrl := none, metadata := none, variants := variants,
      error := some "All style variants failed to render." }
  | some firstSuccess =>
    { ok := true, status := 200, requestId := requestId,
      jobId := firstSuccess.jobIdOpt, videoUrl := firstSuccess.videoUrlOpt,
      metadata := firstSuccess.metadataOpt, variants := variants, error := none }

/-- The correlation the spec describes, written per brief with no lookup
maps: a spec failure carries the spec error, a render failure carries the
render error, and a success carries the render's job id, URL and metadata. -/
def correlatedVariantSpec (modelOut : GeneratedStyleBrief → Except String RawGeneratedVideo)
    (engine : RenderVariantInput → Except String Unit) (requestId : String)
    (imageDataUrl : Option String) (b : GeneratedStyleBrief) : VariantResponse :=
  match generateVideoSpecForStyleIO modelOut imageDataUrl b with
  | .error e => .failed b.variantId b.styleName b.styleBrief e
  | .ok spec =>
    match engine (renderInputFor requestId b spec) with
    | .error e => .failed b.variantId b.styleName b.styleBrief e
    | .ok _ => .succeeded b.variantId b.styleName b.styleBrief
        (jobIdOf requestId b.variantId b.styleName)
        (videoUrlOf requestId b.variantId b.styleName)
        { title := spec.title, width := spec.width, height := spec.height,
          fps := spec.fps, durationInFrames := spec.durationInFrames }

lemma specResultFor_style (modelOut : GeneratedStyleBrief → Except String RawGeneratedVideo)
    (imageDataUrl : Option String) (style : GeneratedStyleBrief) :
    (specResultFor modelOut imageDataUrl style).style = style := by
  unfold specResultFor
  cases generateVideoSpecForStyleIO modelOut imageDataUrl style <;>
    simp [VideoSpecGenerationResult.style]

lemma renderResultFor_variantId (engine : RenderVariantInput → Except String Unit)
    (cwd : String) (variant : RenderVariantInput) :
    (renderResultFor engine cwd variant).variantId = variant.variantId := by
  unfold renderResultFor renderRemotionVideoVariant
  cases engine variant <;> simp [RenderVariantResult.variantId]

lemma renderResultFor_styleName (engine : RenderVariantInput → Except String Unit)
    (cwd : String) (variant : RenderVariantInput) :
    (renderResultFor engine cwd variant).styleName = variant.styleName := by
  unfold renderResultFor renderRemotionVideoVariant
  cases engine variant <;> simp [RenderVariantResult.styleName]

lemma map_congr_mem {α β : Type} (l : List α) (f g : α → β)
    (h : ∀ a ∈ l, f a = g a) : l.map f = l.map g := by
  induction l with
  | nil => rfl
  | cons x xs ih =>
    simp only [List.map_cons]
    rw [h x (List.mem_cons_self x xs), ih (fun a ha => h a (List.mem_cons_of_mem x ha))]

lemma find?_keyed_of_nodup {α β : Type} (key : α → String) (f : α → β) :
    ∀ (l : List α) (a : α), (l.map key).Nodup → a ∈ l →
      (l.map (fun x => (key x, f x))).find? (fun e => e.1 == key a) =
        some (key a, f a) := by
  intro l
  induction l with
  | nil =>
    intro a _ ha
    cases ha
  | cons x xs ih =>
    intro a hnd ha
    rw [List.map_cons, List.nodup_cons] at hnd
    by_cases hk : key x = key a
    · have hax : a = x := by
        rcases List.mem_cons.mp ha with h | h
        · exact h
        · exact absurd (hk ▸ List.mem_map_of_mem key h) hnd.1
      subst hax
      rw [List.map_cons]
      exact List.find?_cons_of_pos _ (by simp)
    · have ha' : a ∈ xs := by
        rcases List.mem_cons.mp ha with h | h
        · exact absurd (h ▸ rfl) hk
        · exact h
      rw [List.map_cons, List.find?_cons_of_neg _ (by simp [hk])]
      exact ih a hnd.2 ha'

lemma jsMapGet_of_mem {α β : Type} (key : α → String) (f : α → β) (l : List α)
    (a : α) (hnd : (l.map key).Nodup) (ha : a ∈ l) :
    jsMapGet (l.map (fun x => (key x, f x))) (key a) = some (f a) := by
  unfold jsMapGet
  rw [← List.map_reverse,
    find?_keyed_of_nodup key f l.reverse a
      (by rw [List.map_reverse]; exact (List.nodup_reverse).mpr hnd)
      (List.mem_reverse.mpr ha)]
  rfl

lemma jsMapGet_isSome_of_key_mem {β : Type} (entries : List (String × β))
    (key : String) (h : ∃ e ∈ entries, e.1 = key) :
    (jsMapGet entries key).isSome = true := by
  unfold jsMapGet
  obtain ⟨e, he, hk⟩ := h
  have hf : (entries.reverse.find? (fun e => e.1 == key)).isSome = true :=
    List.find?_isSome.mpr ⟨e, List.mem_reverse.mpr he, by simp [hk]⟩
  cases hfe : entries.reverse.find? (fun e => e.1 == key) with
  | none => rw [hfe] at hf; cases hf
  | some v => rfl

lemma map_key_filterMap_sublist {α β : Type} (g : α → Option β)
    (kA : α → String) (kB : β → String)
    (h : ∀ a b, g a = some b → kB b = kA a) :
    ∀ l : List α, ((l.filterMap g).map kB).Sublist (l.map kA) := by
  intro l
  induction l with
  | nil => simp
  | cons x xs ih =>
    rw [List.filterMap_cons, List.map_cons]
    cases hg : g x with
    | none => exact ih.cons _
    | some b =>
      rw [List.map_cons, h x b hg]
      exact ih.cons₂ _

/-- C10: the batch combinators preserve positional correspondence — the
spec batch returns exactly one result per input style, in order, the i-th
carrying the i-th style (both on success and on failure), and the render
batch returns one result per input, in order, carrying its input's
`variantId` and `styleName`; consequently the orchestrator's by-`variantId`
map lookup finds an entry for every style it fanned out. -/
theorem batchCombinators_positional
    (modelOut : GeneratedStyleBrief → Except String RawGeneratedVideo)
    (imageDataUrl : Option String) (styles : List GeneratedStyleBrief)
    (engine : RenderVariantInput → Except String Unit) (cwd : String)
    (inputs : List RenderVariantInput) :
    (generateVideoSpecsForStyles modelOut imageDataUrl styles).map
        VideoSpecGenerationResult.style = styles ∧
    (renderRemotionVideoVariants engine cwd inputs).map
        (fun r => (r.variantId, r.styleName)) =
      inputs.map (fun v => (v.variantId, v.styleName)) ∧
    (∀ st ∈ styles,
      (jsMapGet ((generateVideoSpecsForStyles modelOut imageDataUrl styles).map
        (fun r => (r.style.variantId, r))) st.variantId).isSome = true) := by
  refine ⟨?_, ?_, ?_⟩
  · unfold generateVideoSpecsForStyles
    rw [List.map_map]
    have h : ∀ st ∈ styles,
        (VideoSpecGenerationResult.style ∘ specResultFor modelOut imageDataUrl) st =
          id st := fun st _ => specResultFor_style modelOut imageDataUrl st
    rw [map_congr_mem styles _ id h, List.map_id]
  · unfold renderRemotionVideoVariants
    rw [List.map_map]
    exact map_congr_mem inputs _ _ (fun v _ => by
      simp [Function.comp, renderResultFor_variantId, renderResultFor_styleName])
  · intro st hst
    apply jsMapGet_isSome_of_key_mem
    refine ⟨(st.variantId, specResultFor modelOut imageDataUrl st), ?_, rfl⟩
    have hmem : specResultFor modelOut imageDataUrl st ∈
        generateVideoSpecsForStyles modelOut imageDataUrl styles :=
      List.mem_map_of_mem _ hst
    have := List.mem_map_of_mem (fun r => (r.style.variantId, r)) hmem
    simpa [specResultFor_style] using this


/-- The per-brief render-input builder applied after the spec stage. -/
def renderInputOf (modelOut : GeneratedStyleBrief → Except String RawGeneratedVideo)
    (img : Option String) (requestId : String) (a : GeneratedStyleBrief) :
    Option RenderVariantInput :=
  match specResultFor modelOut img a with
  | .succeeded style spec => some (renderInputFor requestId style spec)
  | .failed _ _ => none

lemma renderInputOf_variantId
    (modelOut : GeneratedStyleBrief → Except String RawGeneratedVideo)
    (img : Option String) (requestId : String) :
    ∀ (a : GeneratedStyleBrief) (inp : RenderVariantInput),
      renderInputOf modelOut img requestId a = some inp →
      inp.variantId = a.variantId := by
  intro a inp h
  unfold renderInputOf at h
  cases ha : generateVideoSpecForStyleIO modelOut img a with
  | error e =>
    rw [show specResultFor modelOut img a = .failed a e from by
      simp [specResultFor, ha]] at h
    cases h
  | ok s =>
    rw [show specResultFor modelOut img a = .succeeded a s from by
      simp [specResultFor, ha]] at h
    injection h with h
    rw [← h]
    rfl

lemma postVariantsList_eq
    (modelOut : GeneratedStyleBrief → Except String RawGeneratedVideo)
    (engine : RenderVariantInput → Except String Unit) (cwd requestId : String)
    (img : Option String) (briefs : List GeneratedStyleBrief)
    (hnd : (briefs.map GeneratedStyleBrief.variantId).Nodup)
    (herr : ∀ inp e, engine inp = .error e → e ≠ "") :
    postVariantsList modelOut engine cwd requestId img briefs =
      briefs.map (correlatedVariantSpec modelOut engine requestId img) := by
  unfold postVariantsList
  apply map_congr_mem
  intro b hb
  have hspecEntries :
      (generateVideoSpecsForStyles modelOut img briefs).map
          (fun r => (r.style.variantId, r)) =
        briefs.map (fun x =>
          (GeneratedStyleBrief.variantId x, specResultFor modelOut img x)) := by
    unfold generateVideoSpecsForStyles
    rw [List.map_map]
    exact map_congr_mem briefs _ _ (fun a _ => by
      simp [Function.comp, specResultFor_style])
  rw [hspecEntries,
    jsMapGet_of_mem GeneratedStyleBrief.variantId (specResultFor modelOut img)
      briefs b hnd hb]
  unfold correlatedVariantSpec specResultFor
  cases hgen : generateVideoSpecForStyleIO modelOut img b with
  | error e => rfl
  | ok spec =>
    dsimp only
    have hinputs :
        (generateVideoSpecsForStyles modelOut img briefs).filterMap (fun r =>
          match r with
          | .succeeded style spec => some (renderInputFor requestId style spec)
          | .failed _ _ => none) =
        briefs.filterMap (renderInputOf modelOut img requestId) := by
      unfold generateVideoSpecsForStyles
      rw [List.filterMap_map]
      rfl
    rw [hinputs]
    have hndInputs :
        ((briefs.filterMap (renderInputOf modelOut img requestId)).map
          RenderVariantInput.variantId).Nodup :=
      List.Nodup.sublist
        (map_key_filterMap_sublist _ GeneratedStyleBrief.variantId
          RenderVariantInput.variantId
          (renderInputOf_variantId modelOut img requestId) briefs) hnd
    have hmemInput : renderInputFor requestId b spec ∈
        briefs.filterMap (renderInputOf modelOut img requestId) :=
      List.mem_filterMap.mpr ⟨b, hb, by simp [renderInputOf, specResultFor, hgen]⟩
    have hrenderEntries :
        (renderRemotionVideoVariants engine cwd
          (briefs.filterMap (renderInputOf modelOut img requestId))).map
            (fun r => (r.variantId, r)) =
        (briefs.filterMap (renderInputOf modelOut img requestId)).map (fun v =>
          (RenderVariantInput.variantId v, renderResultFor engine cwd v)) := by
      unfold renderRemotionVideoVariants
      rw [List.map_map]
      exact map_congr_mem _ _ _ (fun v _ => by
        simp [Function.comp, renderResultFor_variantId])
    rw [hrenderEntries]
    have hlook : jsMapGet
        ((briefs.filterMap (renderInputOf modelOut img requestId)).map (fun v =>
          (RenderVariantInput.variantId v, renderResultFor engine cwd v)))
        b.variantId =
        some (renderResultFor engine cwd (renderInputFor requestId b spec)) :=
      jsMapGet_of_mem RenderVariantInput.variantId (renderResultFor engine cwd)
        _ _ hndInputs hmemInput
    rw [hlook]
    unfold renderResultFor renderRemotionVideoVariant
    cases heng : engine (renderInputFor requestId b spec) with
    | ok u => rfl
    | error e =>
      dsimp only
      rw [show jsOrStr e "Render did not complete for this style." = e from
        if_neg (herr _ _ heng)]

lemma postOrchestrate_variants
    (modelOut : GeneratedStyleBrief → Except String RawGeneratedVideo)
    (engine : RenderVariantInput → Except String Unit) (cwd requestId : String)
    (img : Option String) (briefs : List GeneratedStyleBrief) :
    (postOrchestrate modelOut engine cwd requestId img briefs).variants =
      postVariantsList modelOut engine cwd requestId img briefs := by
  simp only [postOrchestrate]
  cases ((postVariantsList modelOut engine cwd requestId img briefs).filter
    VariantResponse.isSucceeded).head? <;> rfl

lemma postOrchestrate_ok_iff
    (modelOut : GeneratedStyleBrief → Except String RawGeneratedVideo)
    (engine : RenderVariantInput → Except String Unit) (cwd requestId : String)
    (img : Option String) (briefs : List GeneratedStyleBrief) :
    ((postOrchestrate modelOut engine cwd requestId img briefs).ok = true ↔
      ∃ v ∈ postVariantsList modelOut engine cwd requestId img briefs,
        v.isSucceeded = true) := by
  simp only [postOrchestrate]
  cases hh : ((postVariantsList modelOut engine cwd requestId img briefs).filter
    VariantResponse.isSucceeded).head? with
  | none =>
    have hnil := List.head?_eq_none_iff.mp hh
    constructor
    · intro h
      cases h
    · rintro ⟨v, hm, hs⟩
      exact absurd hs (List.filter_eq_nil_iff.mp hnil v hm)
  | some v =>
    constructor
    · intro _
      have hvmem : v ∈ (postVariantsList modelOut engine cwd requestId img
          briefs).filter VariantResponse.isSucceeded := by
        cases hfl : (postVariantsList modelOut engine cwd requestId img
            briefs).filter VariantResponse.isSucceeded with
        | nil => rw [hfl] at hh; cases hh
        | cons a t =>
          rw [hfl] at hh
          injection hh with hh
          rw [← hh]
          exact List.mem_cons_self a t
      obtain ⟨hm, hs⟩ := List.mem_filter.mp hvmem
      exact ⟨v, hm, hs⟩
    · intro _
      rfl

lemma postOrchestrate_status
    (modelOut : GeneratedStyleBrief → Except String RawGeneratedVideo)
    (engine : RenderVariantInput → Except String Unit) (cwd requestId : String)
    (img : Option String) (briefs : List GeneratedStyleBrief) :
    (postOrchestrate modelOut engine cwd requestId img briefs).status =
      (if (postOrchestrate modelOut engine cwd requestId img briefs).ok = true
        then 200 else 500) := by
  have hos : ((postOrchestrate modelOut engine cwd requestId img briefs).ok = true ∧
      (postOrchestrate modelOut engine cwd requestId img briefs).status = 200) ∨
      ((postOrchestrate modelOut engine cwd requestId img briefs).ok = false ∧
      (postOrchestrate modelOut engine cwd requestId img briefs).status = 500) := by
    simp only [postOrchestrate]
    cases ((postVariantsList modelOut engine cwd requestId img briefs).filter
      VariantResponse.isSucceeded).head? with
    | none => exact Or.inr ⟨rfl, rfl⟩
    | some v => exact Or.inl ⟨rfl, rfl⟩
  rcases hos with ⟨ho, hs⟩ | ⟨ho, hs⟩ <;> simp [ho, hs]

lemma postOrchestrate_error
    (modelOut : GeneratedStyleBrief → Except String RawGeneratedVideo)
    (engine : RenderVariantInput → Except String Unit) (cwd requestId : String)
    (img : Option String) (briefs : List GeneratedStyleBrief) :
    ((postOrchestrate modelOut engine cwd requestId img briefs).ok = false →
      (postOrchestrate modelOut engine cwd requestId img briefs).error =
        some "All style variants failed to render.") := by
  simp only [postOrchestrate]
  cases ((postVariantsList modelOut engine cwd requestId img briefs).filter
    VariantResponse.isSucceeded).head? with
  | none => intro _; rfl
  | some v => intro h; cases h

/-- C1: for every request that passes the brief stage (its briefs carrying
the generator's distinct `variantId`s, and engine failures carrying nonempty
messages as thrown errors do), the handler returns exactly one variant per
brief, in brief order, each carrying that brief's `variantId`/`styleName`/
`styleBrief`; a spec-failed brief carries the spec error, a render-failed
brief carries the render error, and every other brief succeeds with the
render's job id, video URL and metadata; `ok` is `true` (status 200) iff at
least one variant succeeded, and with zero successes the response has
`ok: false` (status 500) with the total-failure message while still
carrying all per-variant failure records. -/
theorem postHandlerCorrelation
    (modelOut : GeneratedStyleBrief → Except String RawGeneratedVideo)
    (engine : RenderVariantInput → Except String Unit) (cwd requestId : String)
    (img : Option String) (briefs : List GeneratedStyleBrief)
    (hnd : (briefs.map GeneratedStyleBrief.variantId).Nodup)
    (herr : ∀ inp e, engine inp = .error e → e ≠ "") :
    (postOrchestrate modelOut engine cwd requestId img briefs).variants =
      briefs.map (correlatedVariantSpec modelOut engine requestId img) ∧
    ((postOrchestrate modelOut engine cwd requestId img briefs).ok = true ↔
      ∃ v ∈ (postOrchestrate modelOut engine cwd requestId img briefs).variants,
        v.isSucceeded = true) ∧
    (postOrchestrate modelOut engine cwd requestId img briefs).status =
      (if (postOrchestrate modelOut engine cwd requestId img briefs).ok = true
        then 200 else 500) ∧
    ((postOrchestrate modelOut engine cwd requestId img briefs).ok = false →
      (postOrchestrate modelOut engine cwd requestId img briefs).error =
        some "All style variants failed to render.") := by
  have h1 := postOrchestrate_variants modelOut engine cwd requestId img briefs
  have h2 := postVariantsList_eq modelOut engine cwd requestId img briefs hnd herr
  refine ⟨h1.trans h2, ?_,
    postOrchestrate_status modelOut engine cwd requestId img briefs,
    postOrchestrate_error modelOut engine cwd requestId img briefs⟩
  rw [h1]
  exact postOrchestrate_ok_iff modelOut engine cwd requestId img briefs

/-- A raw model spec that passes the schema with a default export. -/
def wGoodRaw : RawGeneratedVideo := { componentCode := some sampleComponentCode }

/-- First brief of the witness batch. -/
def wBrief1 : GeneratedStyleBrief :=
  { variantId := "style-1", styleName := "Neon"
    styleBrief := "High-energy typography with bright gradients and fast cuts." }

/-- Second brief of the witness batch. -/
def wBrief2 : GeneratedStyleBrief :=
  { variantId := "style-2", styleName := "Mono"
    styleBrief := "Sparse monochrome typography with restrained, cinematic pacing." }

/-- A model oracle that fails spec generation for `style-2` only. -/
def wModelOut : GeneratedStyleBrief → Except String RawGeneratedVideo :=
  fun b =>
    if b.variantId = "style-2" then .error "spec generation failed for this style"
    else .ok wGoodRaw

/-- A rendering engine that always succeeds. -/
def wEngine : RenderVariantInput → Except String Unit := fun _ => .ok ()

theorem postHandlerCorrelation_witness :
    (postOrchestrate wModelOut wEngine "/app" "req-1" none [wBrief1, wBrief2]).variants =
      [wBrief1, wBrief2].map (correlatedVariantSpec wModelOut wEngine "req-1" none) ∧
    ((postOrchestrate wModelOut wEngine "/app" "req-1" none [wBrief1, wBrief2]).ok = true ↔
      ∃ v ∈ (postOrchestrate wModelOut wEngine "/app" "req-1" none
        [wBrief1, wBrief2]).variants, v.isSucceeded = true) ∧
    (postOrchestrate wModelOut wEngine "/app" "req-1" none [wBrief1, wBrief2]).status =
      (if (postOrchestrate wModelOut wEngine "/app" "req-1" none
        [wBrief1, wBrief2]).ok = true then 200 else 500) ∧
    ((postOrchestrate wModelOut wEngine "/app" "req-1" none [wBrief1, wBrief2]).ok = false →
      (postOrchestrate wModelOut wEngine "/app" "req-1" none [wBrief1, wBrief2]).error =
        some "All style variants failed to render.") :=
  postHandlerCorrelation wModelOut wEngine "/app" "req-1" none [wBrief1, wBrief2]
    (by decide) (fun inp e h => by simp [wEngine] at h)

/-- A render input for the batch-combinator witness. -/
def wRenderInput1 : RenderVariantInput :=
  renderInputFor "req-1" wBrief1 noExportParsedSpec

theorem batchCombinators_positional_witness :
    (generateVideoSpecsForStyles wModelOut none [wBrief1, wBrief2]).map
        VideoSpecGenerationResult.style = [wBrief1, wBrief2] ∧
    (renderRemotionVideoVariants wEngine "/app" [wRenderInput1]).map
        (fun r => (r.variantId, r.styleName)) =
      [wRenderInput1].map (fun v => (v.variantId, v.styleName)) ∧
    (∀ st ∈ [wBrief1, wBrief2],
      (jsMapGet ((generateVideoSpecsForStyles wModelOut none [wBrief1, wBrief2]).map
        (fun r => (r.style.variantId, r))) st.variantId).isSome = true) :=
  batchCombinators_positional wModelOut none [wBrief1, wBrief2] wEngine "/app"
    [wRenderInput1]
